import Mathlib

/-!
Shallow embedding of the GenAILiveClient connection/session lifecycle from the
repository source: the connection state machine (connect / disconnect /
onopen / onclose), the reconnect scheduler with exponential backoff and
jitter, session-resumption-handle persistence, heartbeat timer bookkeeping,
and the inbound server-message demultiplexer (onmessage).

Timer arming and cancellation are made observable by tracking, next to the
nullable timer-handle fields of the class, the multiset of currently pending
timers of each kind (as lists of timer ids); a ghost counter `storeOps`
counts invocations of the handle store's write path so that "persist only
when the handle differs" is expressible.  Fallible external behaviour is
parameterised: the transport-open result of a connect attempt, the base64
decoder for audio payloads, and event-listener exceptions are oracles.
-/

namespace GenAILive

/-- Connection status of the client: the three-valued status field. -/
inductive Status where
  | disconnected
  | connecting
  | connected
deriving DecidableEq

/-- Opaque connect configuration value; the client only copies and retains it. -/
abbrev Config := Nat

/-- JS truthiness of a nullable string: null and the empty string are falsy. -/
def jsTruthyStr : Option String → Bool
  | none => false
  | some s => s != ""

/-- Session resumption update carried by a server message. -/
structure SRUpdate where
  newHandle : Option String
  resumable : Bool
deriving DecidableEq

/-- Server go-away advisory. -/
structure GoAwayMsg where
  timeLeft : Nat
deriving DecidableEq

/-- Inline binary blob of a content part: optional media type and payload. -/
structure BlobData where
  mimeType : Option String
  data : Option String
deriving DecidableEq

/-- One content part: optional inline binary data and optional text. -/
structure Part where
  inlineData : Option BlobData
  text : Option String
deriving DecidableEq

/-- The serverContent portion of an inbound message. -/
structure ServerContent where
  interrupted : Option Bool
  turnComplete : Option Bool
  generationComplete : Bool
  modelTurnParts : Option (List Part)
deriving DecidableEq

/-- An inbound server message as probed by the demultiplexer. -/
structure Message where
  sessionResumptionUpdate : Option SRUpdate
  goAway : Option GoAwayMsg
  setupComplete : Bool
  toolCall : Bool
  toolCallCancellation : Bool
  serverContent : Option ServerContent
deriving DecidableEq

/-- Events emitted on the client's event bus, log entries included. -/
inductive Emit where
  | audio (bytes : List Nat)
  | closeEv (code : Nat)
  | content (parts : List Part)
  | errorEv
  | interrupted
  | openEv
  | setupcomplete
  | toolcall
  | toolcallcancellation
  | turncomplete
  | sessionresumptionupdate (update : SRUpdate)
  | goaway (g : GoAwayMsg)
  | generationcomplete
  | log (tag : String)
deriving DecidableEq

/-- The mutable state of a GenAILiveClient instance, together with the
pending-timer environment (ids of armed, not yet fired or cancelled timers)
and the ghost store-write counter. -/
structure ClientState where
  sessionHandle : Option String
  store : Option String
  sessionResumable : Bool
  reconnectAttempts : Nat
  reconnectTimeout : Option Nat
  keepAlive : Option Nat
  status : Status
  model : Option String
  config : Option Config
  session : Option Nat
  pendingReconnect : List (Nat × Rat)
  pendingKeepAlive : List Nat
  nextTimer : Nat
  nextSession : Nat
  storeOps : Nat
deriving DecidableEq

/-- MAX_RECONNECT_ATTEMPTS. -/
def MAX_RECONNECT_ATTEMPTS : Nat := 5

/-- RECONNECT_CODES: the transient close-code set. -/
def RECONNECT_CODES : List Nat := [1005, 1006, 1011, 1012, 1013, 1014]

/-- The _setSessionHandle store write path: sets the field and mirrors the
value into the durable store (removal when the value is falsy); each
invocation bumps the ghost write counter. -/
def setSessionHandle (st : ClientState) (h : Option String) : ClientState :=
  { st with
    sessionHandle := h
    store := if jsTruthyStr h then h else none
    storeOps := st.storeOps + 1 }

/-- The _stopKeepAlive operation: clears the interval if one is armed. -/
def stopKeepAlive (st : ClientState) : ClientState :=
  match st.keepAlive with
  | some id =>
      { st with
        keepAlive := none
        pendingKeepAlive := st.pendingKeepAlive.filter (fun x => x != id) }
  | none => st

/-- The _startKeepAlive operation: stops any existing interval, then arms a
fresh one. -/
def startKeepAlive (st : ClientState) : ClientState :=
  let st1 := stopKeepAlive st
  { st1 with
    keepAlive := some st1.nextTimer
    pendingKeepAlive := st1.pendingKeepAlive ++ [st1.nextTimer]
    nextTimer := st1.nextTimer + 1 }

/-- Clearing the pending reconnect timeout, as done at the top of _reconnect
and in disconnect. -/
def clearReconnectTimer (st : ClientState) : ClientState :=
  match st.reconnectTimeout with
  | some id =>
      { st with
        reconnectTimeout := none
        pendingReconnect := st.pendingReconnect.filter (fun e => e.1 != id) }
  | none => st

/-- Result of a connect call: rejected (returned false), success (returned
true), or failed (the transport open threw and the error was re-raised). -/
inductive ConnectResult where
  | rejected
  | success
  | failed
deriving DecidableEq

/-- The connect(model, config, isReconnect) method.  `openOk` is the oracle
for the transport open: `false` means `client.live.connect` throws. -/
def connect (st : ClientState) (model : String) (config : Config)
    (isReconnect : Bool) (openOk : Bool) :
    ClientState × ConnectResult × List Emit :=
  if st.status = .connecting ∨ (st.status = .connected ∧ isReconnect = false) then
    (st, .rejected, [.log "client.connect.warn"])
  else
    let st1 := { st with status := .connecting, config := some config, model := some model }
    if openOk then
      ({ st1 with session := some st1.nextSession, nextSession := st1.nextSession + 1 },
       .success, [.log "client.connect"])
    else
      let st2 := { st1 with status := .disconnected }
      let st3 :=
        if isReconnect then st2
        else { setSessionHandle st2 none with sessionResumable := false }
      (st3, .failed, [.log "client.connect", .log "client.connect.error"])

/-- The backoff delay computed after the n-th consecutive failed reconnect
attempt, with the jitter drawn for that attempt. -/
def reconnectDelay (n : Nat) (jitter : Rat) : Rat :=
  min 30000 (1000 * 2 ^ (n - 1)) + jitter

/-- One invocation of the _reconnect method.  `openOk` resolves the inner
connect attempt; `jitter` is this invocation's random draw. -/
def reconnectStep (st : ClientState) (openOk : Bool) (jitter : Rat) :
    ClientState × List Emit :=
  if st.status = .connected then (st, [])
  else
    let st1 := clearReconnectTimer st
    if st1.reconnectAttempts ≥ MAX_RECONNECT_ATTEMPTS then
      ({ setSessionHandle st1 none with reconnectAttempts := 0 },
       [.log "client.reconnect", .log "client.reconnect.failed"])
    else
      if jsTruthyStr st1.model ∧ st1.config.isSome then
        match st1.model, st1.config with
        | some m, some c =>
          let r := connect st1 m c true openOk
          match r.2.1 with
          | .failed =>
            let st2 := r.1
            let a := st2.reconnectAttempts + 1
            let d := reconnectDelay a jitter
            ({ st2 with
               reconnectAttempts := a
               reconnectTimeout := some st2.nextTimer
               pendingReconnect := st2.pendingReconnect ++ [(st2.nextTimer, d)]
               nextTimer := st2.nextTimer + 1 },
             [.log "client.reconnect"] ++ r.2.2 ++ [.log "client.reconnect.next"])
          | _ =>
            ({ r.1 with reconnectAttempts := 0 }, [.log "client.reconnect"] ++ r.2.2)
        | _, _ => (st1, [.log "client.reconnect"])
      else (st1, [.log "client.reconnect"])

/-- The onopen transport callback. -/
def onopen (st : ClientState) : ClientState × List Emit :=
  let st1 := startKeepAlive { st with status := .connected, reconnectAttempts := 0 }
  (st1, [.log "client.open", .openEv])

/-- The _shouldReconnectOnClose decision function. -/
def shouldReconnectOnClose (st : ClientState) (code : Nat) (prev : Status) : Bool :=
  if prev = .connecting then false
  else if RECONNECT_CODES.contains code then true
  else if code = 1000 ∨ code = 1001 then false
  else jsTruthyStr st.sessionHandle || (st.config.isSome && jsTruthyStr st.model)

/-- The onclose transport callback; `openOk` and `jitter` resolve the inline
reconnect attempt when one is triggered. -/
def onclose (st : ClientState) (code : Nat) (openOk : Bool) (jitter : Rat) :
    ClientState × List Emit :=
  let st0 := stopKeepAlive st
  let prev := st0.status
  let st1 := { st0 with status := .disconnected }
  let evs : List Emit := [.log "server.close", .closeEv code]
  if shouldReconnectOnClose st1 code prev ∧
      (jsTruthyStr st1.sessionHandle ∨ st1.config.isSome) then
    let r := reconnectStep st1 openOk jitter
    (r.1, evs ++ [.log "client.reconnect.trigger"] ++ r.2)
  else if code = 1000 ∨ code = 1001 then
    ({ setSessionHandle st1 none with sessionResumable := false },
     evs ++ [.log "client.session.clear"])
  else (st1, evs)

/-- The public disconnect method. -/
def disconnect (st : ClientState) : ClientState × List Emit :=
  let st1 := clearReconnectTimer (stopKeepAlive st)
  let st2 := { st1 with session := none }
  if st2.status ≠ .disconnected then
    ({ st2 with status := .disconnected },
     [.log "client.disconnect", .closeEv 1000])
  else (st2, [.log "client.disconnect"])

/-- The public clearSession method. -/
def clearSession (st : ClientState) : ClientState × List Emit :=
  ({ setSessionHandle st none with sessionResumable := false },
   [.log "client.session.clear"])

/-- Initial state of a freshly constructed client given the durable store's
content: the handle is loaded through the truthiness-filtering getter. -/
def initState (stored : Option String) : ClientState :=
  { sessionHandle := if jsTruthyStr stored then stored else none
    store := stored
    sessionResumable := false
    reconnectAttempts := 0
    reconnectTimeout := none
    keepAlive := none
    status := .disconnected
    model := none
    config := none
    session := none
    pendingReconnect := []
    pendingKeepAlive := []
    nextTimer := 0
    nextSession := 0
    storeOps := 0 }

/-- Intermediate processing state of one onmessage invocation: the client
state plus the events emitted so far. -/
structure PState where
  cs : ClientState
  evs : List Emit
deriving DecidableEq

/-- Result of a processing fragment: normal completion, or a raised exception
together with the state at the moment it was raised (events already emitted
stay emitted). -/
inductive PRes where
  | ok (s : PState)
  | err (e : String) (s : PState)
deriving DecidableEq

/-- The state carried by a processing result, whether or not it erred. -/
def PRes.state : PRes → PState
  | .ok s => s
  | .err _ s => s

/-- A processing fragment of the onmessage handler. -/
abbrev ProcU := PState → PRes

/-- Sequencing of processing fragments: an exception aborts the rest. -/
def seqP (a b : ProcU) : ProcU := fun s =>
  match a s with
  | .ok s1 => b s1
  | r => r

/-- Emit an event on the bus; the listener-exception oracle `ef` decides
whether a subscriber throws (after the event has been delivered). -/
def emitP (ef : Emit → Option String) (e : Emit) : ProcU := fun s =>
  let s1 := { s with evs := s.evs ++ [e] }
  match ef e with
  | some msg => .err msg s1
  | none => .ok s1

/-- The log helper; log delivery is modelled as infallible. -/
def logP (tag : String) : ProcU := fun s =>
  .ok { s with evs := s.evs ++ [.log tag] }

/-- The no-op fragment. -/
def skipP : ProcU := fun s => .ok s

/-- A try/catch block around a fragment. -/
def tryP (a : ProcU) (h : ProcU) : ProcU := fun s =>
  match a s with
  | .err _ s1 => h s1
  | r => r

/-- The sessionResumptionUpdate branch of onmessage. -/
def handleSessionUpdate (ef : Emit → Option String) (u : SRUpdate) : ProcU := fun s =>
  let s1 :=
    if u.resumable && jsTruthyStr u.newHandle then
      let s2 :=
        if s.cs.sessionHandle ≠ u.newHandle then
          { s with
            cs := setSessionHandle s.cs u.newHandle
            evs := s.evs ++ [.log "client.sessionUpdate"] }
        else s
      { s2 with cs := { s2.cs with sessionResumable := true } }
    else
      { s with
        cs := { setSessionHandle s.cs none with sessionResumable := false }
        evs := s.evs ++ [.log "client.sessionUpdate"] }
  emitP ef (.sessionresumptionupdate u) s1

/-- JS String.prototype.startsWith, modelled over the character list. -/
def strStartsWith (s pre : String) : Bool :=
  pre.data.isPrefixOf s.data

/-- Is a part classified as an audio part by the demultiplexer's filter:
inline data present with a media type starting in audio/. -/
def isAudioPart (p : Part) : Bool :=
  match p.inlineData with
  | none => false
  | some b =>
    match b.mimeType with
    | none => false
    | some m => strStartsWith m "audio/"

/-- Processing of one audio part: skipped when no (truthy) payload is
present; otherwise the payload is decoded and an audio event emitted, with a
per-part try/catch turning any failure into a log entry. -/
def handleAudioPart (ef : Emit → Option String)
    (decode : String → Except String (List Nat)) (p : Part) : ProcU := fun s =>
  match p.inlineData with
  | none => .ok s
  | some b =>
    match b.data with
    | none => .ok s
    | some d =>
      if d = "" then .ok s
      else
        tryP
          (fun s0 =>
            match decode d with
            | .error e => .err e s0
            | .ok bytes => seqP (emitP ef (.audio bytes)) (logP "server.audio") s0)
          (logP "server.audio.error") s

/-- The forEach loop over the audio parts. -/
def forP (f : Part → ProcU) : List Part → ProcU
  | [] => skipP
  | p :: rest => seqP (f p) (forP f rest)

/-- The lodash difference of two part lists (membership by value). -/
def lodashDifference (l sub : List Part) : List Part :=
  l.filter (fun p => !(sub.contains p))

/-- Processing of a modelTurn parts list: partition into audio parts and the
rest, emit one audio event per decodable audio part in order, then one
bundled content event when non-audio parts remain. -/
def handleModelTurn (ef : Emit → Option String)
    (decode : String → Except String (List Nat)) (parts : List Part) : ProcU :=
  let audioParts := parts.filter isAudioPart
  let otherParts := lodashDifference parts audioParts
  seqP (forP (handleAudioPart ef decode) audioParts)
    (if otherParts.length > 0 then
      seqP (emitP ef (.content otherParts)) (logP "server.content.modelTurn")
    else skipP)

/-- The serverContent branch of onmessage. -/
def handleServerContent (ef : Emit → Option String)
    (decode : String → Except String (List Nat)) (sc : ServerContent) : ProcU :=
  seqP
    (if sc.interrupted.isSome then
      seqP (logP "server.content.interrupted") (emitP ef .interrupted)
    else skipP)
    (seqP
      (if sc.turnComplete.isSome then
        seqP (logP "server.content.turnComplete") (emitP ef .turncomplete)
      else skipP)
      (seqP
        (if sc.generationComplete then
          seqP (logP "server.content.generationComplete") (emitP ef .generationcomplete)
        else skipP)
        (match sc.modelTurnParts with
        | some parts => handleModelTurn ef decode parts
        | none => skipP)))

/-- The session-resumption slot of the onmessage body. -/
def sruHandler (ef : Emit → Option String) (msg : Message) : ProcU :=
  match msg.sessionResumptionUpdate with
  | some u => handleSessionUpdate ef u
  | none => skipP

/-- The goAway slot of the onmessage body. -/
def goAwayHandler (ef : Emit → Option String) (msg : Message) : ProcU :=
  match msg.goAway with
  | some g => seqP (logP "server.goAway") (emitP ef (.goaway g))
  | none => skipP

/-- The setupComplete slot of the onmessage body. -/
def setupHandler (ef : Emit → Option String) (msg : Message) : ProcU :=
  if msg.setupComplete then
    seqP (logP "server.setupComplete") (emitP ef .setupcomplete)
  else skipP

/-- The tail of the onmessage body: tool call with early return, tool call
cancellation with early return, otherwise serverContent. -/
def tailHandler (ef : Emit → Option String)
    (decode : String → Except String (List Nat)) (msg : Message) : ProcU :=
  if msg.toolCall then
    seqP (logP "server.toolCall") (emitP ef .toolcall)
  else if msg.toolCallCancellation then
    seqP (logP "server.toolCallCancellation") (emitP ef .toolcallcancellation)
  else
    match msg.serverContent with
    | some sc => handleServerContent ef decode sc
    | none => skipP

/-- Everything of the onmessage body after the session-resumption slot. -/
def restHandler (ef : Emit → Option String)
    (decode : String → Except String (List Nat)) (msg : Message) : ProcU :=
  seqP (goAwayHandler ef msg)
    (seqP (setupHandler ef msg) (tailHandler ef decode msg))

/-- The body of onmessage, before the message-boundary try/catch. -/
def onmessageBody (ef : Emit → Option String)
    (decode : String → Except String (List Nat)) (msg : Message) : ProcU :=
  seqP (logP "server.message.raw")
    (seqP (sruHandler ef msg) (restHandler ef decode msg))

/-- The onmessage transport callback: the body runs under the
message-boundary try/catch, which converts any exception into a log entry
and returns normally. -/
def onmessage (ef : Emit → Option String)
    (decode : String → Except String (List Nat)) (cs : ClientState)
    (msg : Message) : ClientState × List Emit :=
  match onmessageBody ef decode msg { cs := cs, evs := [] } with
  | .ok s => (s.cs, s.evs)
  | .err _ s => (s.cs, s.evs ++ [.log "server.message.error"])

/-- External stimuli driving the client: public API calls, transport
callbacks and timer firings, each carrying the oracles that resolve its
external effects. -/
inductive Op where
  | connectOp (model : String) (config : Config) (isReconnect : Bool) (openOk : Bool)
  | onopenOp
  | oncloseOp (code : Nat) (openOk : Bool) (jitter : Rat)
  | onerrorOp
  | onmessageOp (ef : Emit → Option String)
      (decode : String → Except String (List Nat)) (msg : Message)
  | disconnectOp
  | clearSessionOp
  | reconnectFire (openOk : Bool) (jitter : Rat)
  | keepAliveFire (sendOk : Bool)
  | forceReconnectOp

/-- One step of the client under a stimulus.  A reconnect timer fires only
while armed (a cancelled timer never fires); firing consumes it from the
pending environment before _reconnect runs. -/
def stepOp (st : ClientState) : Op → ClientState × List Emit
  | .connectOp m c r ok =>
    let res := connect st m c r ok
    (res.1, res.2.2)
  | .onopenOp => onopen st
  | .oncloseOp code ok j => onclose st code ok j
  | .onerrorOp => (st, [.log "server.error", .errorEv])
  | .onmessageOp ef dec msg => onmessage ef dec st msg
  | .disconnectOp => disconnect st
  | .clearSessionOp => clearSession st
  | .reconnectFire ok j =>
    match st.reconnectTimeout with
    | none => (st, [])
    | some id =>
      let st1 := { st with pendingReconnect := st.pendingReconnect.filter (fun e => e.1 != id) }
      reconnectStep st1 ok j
  | .keepAliveFire sendOk =>
    match st.keepAlive with
    | none => (st, [])
    | some _ =>
      if st.status = .connected ∧ st.session.isSome then
        if sendOk then (st, [.log "client.keepalive"])
        else (stopKeepAlive st, [.log "client.keepalive.error"])
      else (st, [])
  | .forceReconnectOp =>
    if st.status = .connected ∧ st.session.isSome then (st, [.log "client.forceReconnect"])
    else (st, [])

/-- Running a list of stimuli from a state. -/
def runTrace (st : ClientState) : List Op → ClientState
  | [] => st
  | op :: rest => runTrace (stepOp st op).1 rest

/-- The states a client can reach: any initial store content, then any
sequence of stimuli. -/
inductive Reachable : ClientState → Prop where
  | init (stored : Option String) : Reachable (initState stored)
  | next (st : ClientState) (op : Op) : Reachable st → Reachable (stepOp st op).1

/-- The listener oracle under which no event subscriber throws. -/
def noFail : Emit → Option String := fun _ => none

/-- A message that carries only serverContent with the given modelTurn parts. -/
def contentMsg (parts : List Part) : Message :=
  ⟨none, none, false, false, false, some ⟨none, none, false, some parts⟩⟩

/-- A message that carries only a session resumption update. -/
def sruMsg (h : Option String) (r : Bool) : Message :=
  ⟨some ⟨h, r⟩, none, false, false, false, none⟩

/-- Is an emitted event a log entry. -/
def isLogEv : Emit → Bool
  | .log _ => true
  | _ => false

/-- Is an emitted event an audio event. -/
def isAudioEv : Emit → Bool
  | .audio _ => true
  | _ => false

/-- Is an emitted event a session-resumption-update event. -/
def isSRUEv : Emit → Bool
  | .sessionresumptionupdate _ => true
  | _ => false

/-- The audio event that one part contributes: present exactly when the part
has a truthy inline payload that decodes successfully. -/
def decodedAudio (decode : String → Except String (List Nat)) (p : Part) :
    Option Emit :=
  match p.inlineData with
  | none => none
  | some b =>
    match b.data with
    | none => none
    | some d =>
      if d = "" then none
      else
        match decode d with
        | .ok bytes => some (.audio bytes)
        | .error _ => none

/-- The events (bus events and logs) produced for one audio part. -/
def audioPartEvents (ef : Emit → Option String)
    (decode : String → Except String (List Nat)) (p : Part) : List Emit :=
  match p.inlineData with
  | none => []
  | some b =>
    match b.data with
    | none => []
    | some d =>
      if d = "" then []
      else
        match decode d with
        | .error _ => [.log "server.audio.error"]
        | .ok bytes =>
          match ef (.audio bytes) with
          | some _ => [.audio bytes, .log "server.audio.error"]
          | none => [.audio bytes, .log "server.audio"]

/-- The events produced by the audio-part loop. -/
def audioEvents (ef : Emit → Option String)
    (decode : String → Except String (List Nat)) : List Part → List Emit
  | [] => []
  | p :: rest => audioPartEvents ef decode p ++ audioEvents ef decode rest

/-- Equality of two client states on every field the message handler leaves
alone (everything except the handle, the store, the resumability flag and
the ghost write counter). -/
def csFrame (a b : ClientState) : Prop :=
  b.reconnectAttempts = a.reconnectAttempts ∧
  b.reconnectTimeout = a.reconnectTimeout ∧
  b.pendingReconnect = a.pendingReconnect ∧
  b.keepAlive = a.keepAlive ∧
  b.pendingKeepAlive = a.pendingKeepAlive ∧
  b.status = a.status ∧
  b.model = a.model ∧
  b.config = a.config ∧
  b.session = a.session ∧
  b.nextTimer = a.nextTimer ∧
  b.nextSession = a.nextSession

/-- A processing fragment that never touches the client state. -/
def csInv (f : ProcU) : Prop := ∀ s, ((f s).state).cs = s.cs

/-- A processing fragment that moves the client state only within the
message-handler frame. -/
def csFrameP (f : ProcU) : Prop := ∀ s, csFrame s.cs ((f s).state).cs

/-- A processing fragment that only appends events. -/
def evsMono (f : ProcU) : Prop := ∀ s, ∃ t, ((f s).state).evs = s.evs ++ t

/-- A processing fragment that emits no session-resumption-update event. -/
def addsNoSRU (f : ProcU) : Prop :=
  ∀ s, (((f s).state).evs).countP isSRUEv = s.evs.countP isSRUEv

/-- The global state invariant: the attempt counter is bounded by the
ceiling, and for each timer kind at most one timer is pending, and a pending
one is the one the nullable timer field holds (the field may hold a stale
handle after its timer fired, so the pending environment may be empty under
a non-null field). -/
def Inv (st : ClientState) : Prop :=
  st.reconnectAttempts ≤ MAX_RECONNECT_ATTEMPTS ∧
  (st.pendingReconnect = [] ∨
    ∃ id d, st.pendingReconnect = [(id, d)] ∧ st.reconnectTimeout = some id) ∧
  (st.pendingKeepAlive = [] ∨
    ∃ id, st.pendingKeepAlive = [id] ∧ st.keepAlive = some id)

/-- A stimulus trace that establishes a session, receives a resumable handle,
suffers an abnormal closure and then exhausts the five reconnect attempts:
connect, open, resumable update H1, close 1006 with a failing inline
reconnect, then four more failing timer firings and the final firing that
hits the attempt ceiling. -/
def bugTrace : List Op :=
  [ .connectOp "m" 0 false true,
    .onopenOp,
    .onmessageOp noFail (fun _ => .ok [7]) (sruMsg (some "H1") true),
    .oncloseOp 1006 false 0,
    .reconnectFire false 0,
    .reconnectFire false 0,
    .reconnectFire false 0,
    .reconnectFire false 0,
    .reconnectFire false 0 ]

/-- C1: the reconnect decision function returns false whenever the previous
status was connecting; otherwise true whenever the close code is in the
transient set 1005, 1006, 1011, 1012, 1013, 1014; otherwise false for codes
1000 and 1001; and for every other code, true if and only if a resumption
handle is stored or both a model and a config are retained. -/
theorem c1_reconnect_decision :
    (∀ st code, shouldReconnectOnClose st code .connecting = false) ∧
    (∀ st prev code, prev ≠ .connecting → code ∈ RECONNECT_CODES →
      shouldReconnectOnClose st code prev = true) ∧
    (∀ st prev code, prev ≠ .connecting → (code = 1000 ∨ code = 1001) →
      shouldReconnectOnClose st code prev = false) ∧
    (∀ st prev code, prev ≠ .connecting → code ∉ RECONNECT_CODES →
      code ≠ 1000 → code ≠ 1001 →
      (shouldReconnectOnClose st code prev = true ↔
        (jsTruthyStr st.sessionHandle = true ∨
          (st.config.isSome = true ∧ jsTruthyStr st.model = true)))) := by
  refine ⟨?_, ?_, ?_, ?_⟩
  · intro st code
    simp [shouldReconnectOnClose]
  · intro st prev code h1 h2
    simp [shouldReconnectOnClose, h1]
    exact Or.inl h2
  · intro st prev code h1 h2
    simp [shouldReconnectOnClose, h1, h2]
    rcases h2 with rfl | rfl <;> decide
  · intro st prev code h1 h2 h3 h4
    simp [shouldReconnectOnClose, h1, h3, h4]
    exact fun hmem => absurd hmem h2

/-- Witness for C1 at a concrete fourth-bullet input: previous status
disconnected, unlisted close code 4005, a stored handle. -/
theorem c1_reconnect_decision_witness :
    shouldReconnectOnClose (initState (some "H")) 4005 .disconnected = true ↔
      (jsTruthyStr (initState (some "H")).sessionHandle = true ∨
        ((initState (some "H")).config.isSome = true ∧
          jsTruthyStr (initState (some "H")).model = true)) :=
  c1_reconnect_decision.2.2.2 (initState (some "H")) .disconnected 4005
    (by decide) (by decide) (by decide) (by decide)

/-- C7: a connect call made while connecting, or while connected without the
reconnect flag, is rejected: the state (model, config, handle, status,
session included) is unchanged, the result is the rejection (not the
successful true), and the transport-open oracle is never consulted, so no
transport session is opened. -/
theorem c7_connect_rejected :
    ∀ st m c r ok,
      (st.status = .connecting ∨ (st.status = .connected ∧ r = false)) →
      (connect st m c r ok).1 = st ∧
      (connect st m c r ok).2.1 = .rejected ∧
      (connect st m c r ok).2.1 ≠ .success ∧
      (∀ ok2, connect st m c r ok = connect st m c r ok2) := by
  intro st m c r ok h
  refine ⟨?_, ?_, ?_, ?_⟩ <;> simp [connect, h]

/-- Witness for C7: a connect call while already connecting is rejected. -/
theorem c7_connect_rejected_witness :
    (connect { initState none with status := .connecting } "m" 0 false true).1 =
        { initState none with status := .connecting } ∧
      (connect { initState none with status := .connecting } "m" 0 false true).2.1 = .rejected ∧
      (connect { initState none with status := .connecting } "m" 0 false true).2.1 ≠ .success ∧
      (∀ ok2, connect { initState none with status := .connecting } "m" 0 false true =
        connect { initState none with status := .connecting } "m" 0 false ok2) :=
  c7_connect_rejected { initState none with status := .connecting } "m" 0 false true
    (Or.inl rfl)

/-- C8: when the transport open of an accepted connect attempt fails, the
status is set back to disconnected and the error is re-raised (result
failed); a user-initiated attempt additionally clears the stored handle,
the durable store and the resumability flag, while a reconnect attempt
leaves handle, store and flag untouched. -/
theorem c8_connect_failure :
    ∀ st m c r,
      ¬(st.status = .connecting ∨ (st.status = .connected ∧ r = false)) →
      (connect st m c r false).2.1 = .failed ∧
      (connect st m c r false).1.status = .disconnected ∧
      (r = false →
        (connect st m c r false).1.sessionHandle = none ∧
        (connect st m c r false).1.store = none ∧
        (connect st m c r false).1.sessionResumable = false) ∧
      (r = true →
        (connect st m c r false).1.sessionHandle = st.sessionHandle ∧
        (connect st m c r false).1.store = st.store ∧
        (connect st m c r false).1.sessionResumable = st.sessionResumable) := by
  intro st m c r h
  have h1 : st.status ≠ .connecting := fun hh => h (Or.inl hh)
  cases r
  · have h2 : st.status ≠ .connected := fun hh => h (Or.inr ⟨hh, rfl⟩)
    simp [connect, h1, h2, setSessionHandle, jsTruthyStr]
  · simp [connect, h1, setSessionHandle, jsTruthyStr]

/-- Witness for C8 at a concrete input: a user-initiated connect from the
fresh state whose transport open fails. -/
theorem c8_connect_failure_witness :
    (connect (initState (some "H")) "m" 0 false false).2.1 = .failed ∧
      (connect (initState (some "H")) "m" 0 false false).1.status = .disconnected ∧
      (false = false →
        (connect (initState (some "H")) "m" 0 false false).1.sessionHandle = none ∧
        (connect (initState (some "H")) "m" 0 false false).1.store = none ∧
        (connect (initState (some "H")) "m" 0 false false).1.sessionResumable = false) ∧
      (false = true →
        (connect (initState (some "H")) "m" 0 false false).1.sessionHandle =
          (initState (some "H")).sessionHandle ∧
        (connect (initState (some "H")) "m" 0 false false).1.store =
          (initState (some "H")).store ∧
        (connect (initState (some "H")) "m" 0 false false).1.sessionResumable =
          (initState (some "H")).sessionResumable) :=
  c8_connect_failure (initState (some "H")) "m" 0 false (by decide)

/-- C10: clearSession sets the stored handle to null (field and durable
store) and the resumability flag to false, and changes nothing else:
status, live session, model, config, attempt counter, both timer fields and
both pending-timer environments are untouched. -/
theorem c10_clearSession_frame :
    ∀ st,
      (clearSession st).1.sessionHandle = none ∧
      (clearSession st).1.store = none ∧
      (clearSession st).1.sessionResumable = false ∧
      (clearSession st).1.status = st.status ∧
      (clearSession st).1.session = st.session ∧
      (clearSession st).1.model = st.model ∧
      (clearSession st).1.config = st.config ∧
      (clearSession st).1.reconnectAttempts = st.reconnectAttempts ∧
      (clearSession st).1.reconnectTimeout = st.reconnectTimeout ∧
      (clearSession st).1.pendingReconnect = st.pendingReconnect ∧
      (clearSession st).1.keepAlive = st.keepAlive ∧
      (clearSession st).1.pendingKeepAlive = st.pendingKeepAlive ∧
      (clearSession st).1.nextTimer = st.nextTimer ∧
      (clearSession st).1.nextSession = st.nextSession := by
  intro st
  simp [clearSession, setSessionHandle, jsTruthyStr]

/-- Evaluation of the per-part audio handler: it always completes normally
(decode failures and listener exceptions are consumed by the per-part
try/catch), leaving the client state alone and appending exactly the events
of that part. -/
theorem handleAudioPart_run (ef : Emit → Option String)
    (dec : String → Except String (List Nat)) (p : Part) (s : PState) :
    handleAudioPart ef dec p s =
      .ok { cs := s.cs, evs := s.evs ++ audioPartEvents ef dec p } := by
  obtain ⟨cs0, evs0⟩ := s
  obtain ⟨bd, tx⟩ := p
  cases bd with
  | none => simp [handleAudioPart, audioPartEvents]
  | some b =>
    cases hbd : b.data with
    | none => simp [handleAudioPart, audioPartEvents, hbd]
    | some d =>
      by_cases hd : d = ""
      · simp [handleAudioPart, audioPartEvents, hbd, hd]
      · cases hdec : dec d with
        | error e =>
          simp [handleAudioPart, audioPartEvents, hbd, hd, hdec, tryP, logP]
        | ok bytes =>
          cases hef : ef (.audio bytes) with
          | none =>
            simp [handleAudioPart, audioPartEvents, hbd, hd, hdec, hef, tryP,
              seqP, emitP, logP]
          | some m =>
            simp [handleAudioPart, audioPartEvents, hbd, hd, hdec, hef, tryP,
              seqP, emitP, logP]

/-- Evaluation of the audio forEach loop: it always completes normally,
leaves the client state alone and appends the events of every part, in
array order. -/
theorem forP_run (ef : Emit → Option String)
    (dec : String → Except String (List Nat)) (l : List Part) :
    ∀ s, forP (handleAudioPart ef dec) l s =
      .ok { cs := s.cs, evs := s.evs ++ audioEvents ef dec l } := by
  induction l with
  | nil => intro s; simp [forP, skipP, audioEvents]
  | cons p rest ih =>
    intro s
    simp [forP, seqP, handleAudioPart_run, audioEvents, ih]

/-- C4: the message handler never propagates an exception to the transport
layer: whenever the body of onmessage raises, the message-boundary catch
turns the exception into a log entry and onmessage returns normally with
the events emitted so far; moreover each audio part is processed under its
own try/catch, so it always completes normally, and a failing part leaves
the loop to continue with its siblings exactly as if it alone had run. -/
theorem c4_message_exception_containment :
    (∀ ef dec cs msg e s,
      onmessageBody ef dec msg { cs := cs, evs := [] } = .err e s →
      onmessage ef dec cs msg = (s.cs, s.evs ++ [.log "server.message.error"])) ∧
    (∀ ef dec p s, handleAudioPart ef dec p s =
      .ok { cs := s.cs, evs := s.evs ++ audioPartEvents ef dec p }) ∧
    (∀ ef dec p rest s,
      forP (handleAudioPart ef dec) (p :: rest) s =
        forP (handleAudioPart ef dec) rest
          { cs := s.cs, evs := s.evs ++ audioPartEvents ef dec p }) := by
  refine ⟨?_, handleAudioPart_run, ?_⟩
  · intro ef dec cs msg e s h
    simp [onmessage, h]
  · intro ef dec p rest s
    simp [forP, seqP, handleAudioPart_run]

/-- Witness for C4: a listener that throws on the setup-complete event makes
the body raise, and onmessage still returns normally with the error logged
after the events already delivered. -/
theorem c4_message_exception_containment_witness :
    onmessage (fun e => if e = Emit.setupcomplete then some "boom" else none)
        (fun _ => .ok [7]) (initState none)
        ⟨none, none, true, false, false, none⟩ =
      (initState none,
        [Emit.log "server.message.raw", Emit.log "server.setupComplete",
          Emit.setupcomplete] ++ [Emit.log "server.message.error"]) :=
  c4_message_exception_containment.1
    (fun e => if e = Emit.setupcomplete then some "boom" else none)
    (fun _ => .ok [7]) (initState none)
    ⟨none, none, true, false, false, none⟩ "boom"
    { cs := initState none,
      evs := [Emit.log "server.message.raw", Emit.log "server.setupComplete",
        Emit.setupcomplete] }
    (by decide)

/-- The lodash difference of the parts against their audio-filtered sublist
is the filter by the negated audio predicate. -/
theorem lodashDifference_filter (parts : List Part) :
    lodashDifference parts (parts.filter isAudioPart) =
      parts.filter (fun p => !isAudioPart p) := by
  unfold lodashDifference
  apply List.filter_congr
  intro x hx
  by_cases ha : isAudioPart x
  · simp [ha, List.mem_filter]
    exact hx
  · simp [ha, List.mem_filter]

/-- With no listener exceptions, the non-log events of the audio loop are
exactly the decodable payloads of its parts, in order. -/
theorem audioEvents_filtered (dec : String → Except String (List Nat))
    (l : List Part) :
    (audioEvents noFail dec l).filter (fun e => !isLogEv e) =
      l.filterMap (decodedAudio dec) := by
  induction l with
  | nil => simp [audioEvents]
  | cons p rest ih =>
    simp only [audioEvents, List.filter_append, List.filterMap_cons, ih]
    obtain ⟨bd, tx⟩ := p
    cases bd with
    | none => simp [audioPartEvents, decodedAudio]
    | some b =>
      cases hbd : b.data with
      | none => simp [audioPartEvents, decodedAudio, hbd]
      | some d =>
        by_cases hd : d = ""
        · simp [audioPartEvents, decodedAudio, hbd, hd]
        · cases hdec : dec d with
          | error e =>
            simp [audioPartEvents, decodedAudio, hbd, hd, hdec, isLogEv]
          | ok bytes =>
            simp [audioPartEvents, decodedAudio, hbd, hd, hdec, noFail,
              isLogEv, isAudioEv]

/-- Full evaluation of onmessage on a content-only message, with no listener
exceptions. -/
theorem onmessage_contentMsg (dec : String → Except String (List Nat))
    (cs : ClientState) (parts : List Part) :
    onmessage noFail dec cs (contentMsg parts) =
      (cs, Emit.log "server.message.raw" ::
        (audioEvents noFail dec (parts.filter isAudioPart) ++
          (if (parts.filter (fun p => !isAudioPart p)).length > 0 then
            [Emit.content (parts.filter (fun p => !isAudioPart p)),
              Emit.log "server.content.modelTurn"]
          else []))) := by
  unfold onmessage onmessageBody sruHandler restHandler goAwayHandler
  unfold setupHandler tailHandler contentMsg handleServerContent handleModelTurn
  simp only [lodashDifference_filter]
  by_cases hlen : (parts.filter (fun p => !isAudioPart p)).length > 0
  · simp [seqP, logP, skipP, forP_run, emitP, noFail, hlen]
  · simp [seqP, logP, skipP, forP_run, emitP, noFail, hlen]

/-- Filtering the non-log events past a leading log entry. -/
theorem filter_nonlog_log (tag : String) (l : List Emit) :
    List.filter (fun e => !isLogEv e) (.log tag :: l) =
      List.filter (fun e => !isLogEv e) l := by
  simp [isLogEv]

/-- Filtering the non-log events keeps a leading content event. -/
theorem filter_nonlog_content (ps : List Part) (l : List Emit) :
    List.filter (fun e => !isLogEv e) (.content ps :: l) =
      .content ps :: List.filter (fun e => !isLogEv e) l := by
  simp [isLogEv]

/-- The non-log events of a content-only message: the decodable audio
payloads of the audio parts in order, then a single bundled content event
exactly when non-audio parts remain. -/
theorem onmessage_content_events (dec : String → Except String (List Nat))
    (cs : ClientState) (parts : List Part) :
    ((onmessage noFail dec cs (contentMsg parts)).2.filter
        (fun e => !isLogEv e)) =
      (parts.filter isAudioPart).filterMap (decodedAudio dec) ++
        (if (parts.filter (fun p => !isAudioPart p)).length > 0 then
          [.content (parts.filter (fun p => !isAudioPart p))]
        else []) := by
  rw [onmessage_contentMsg]
  by_cases hlen : (parts.filter (fun p => !isAudioPart p)).length > 0
  · rw [if_pos hlen, if_pos hlen]
    show List.filter _ (Emit.log _ :: _) = _
    rw [filter_nonlog_log, List.filter_append, audioEvents_filtered,
      filter_nonlog_content, filter_nonlog_log]
    simp
  · rw [if_neg hlen, if_neg hlen]
    show List.filter _ (Emit.log _ :: _) = _
    rw [filter_nonlog_log, List.filter_append, audioEvents_filtered]
    simp

/-- C3 (amended): a content message whose parts are an audio part with a
non-empty payload that decodes successfully followed by a non-audio text
part emits exactly one audio event with the decoded payload and then
exactly one content event containing only the text part; in general the
non-log events are one audio event per audio part carrying a non-empty,
successfully decoding payload, in array order, followed by one bundled
content event with the non-audio parts in their original relative order,
and no content event when no non-audio part remains. -/
theorem c3_audio_then_content :
    (∀ dec cs d bytes m t,
      strStartsWith m "audio/" = true → dec d = .ok bytes → d ≠ "" →
      ((onmessage noFail dec cs
          (contentMsg [⟨some ⟨some m, some d⟩, none⟩, ⟨none, some t⟩])).2.filter
        (fun e => !isLogEv e)) =
        [.audio bytes, .content [⟨none, some t⟩]]) ∧
    (∀ dec cs parts,
      ((onmessage noFail dec cs (contentMsg parts)).2.filter
          (fun e => !isLogEv e)) =
        (parts.filter isAudioPart).filterMap (decodedAudio dec) ++
          (if (parts.filter (fun p => !isAudioPart p)).length > 0 then
            [.content (parts.filter (fun p => !isAudioPart p))]
          else [])) := by
  refine ⟨?_, onmessage_content_events⟩
  intro dec cs d bytes m t hm hdec hd
  rw [onmessage_content_events]
  simp [isAudioPart, hm, decodedAudio, hdec, hd]

/-- Witness for C3 at a concrete two-part content message. -/
theorem c3_audio_then_content_witness :
    ((onmessage noFail (fun _ => Except.ok [7]) (initState none)
        (contentMsg [⟨some ⟨some "audio/pcm", some "QQ"⟩, none⟩,
          ⟨none, some "hi"⟩])).2.filter (fun e => !isLogEv e)) =
      [Emit.audio [7], Emit.content [⟨none, some "hi"⟩]] :=
  c3_audio_then_content.1 (fun _ => Except.ok [7]) (initState none) "QQ" [7]
    "audio/pcm" "hi" (by decide) rfl (by decide)

/-- C3 counterexample: a part that the demultiplexer classifies as an audio
part (inline data with an audio media type) but that carries no payload
produces no audio event at all, so a content message can have one audio
part and zero audio events, against the one-audio-event-per-audio-part
reading of the claim. -/
theorem c3_audio_then_content_counterexample :
    ((onmessage noFail (fun _ => Except.ok [7]) (initState none)
        (contentMsg [⟨some ⟨some "audio/pcm", none⟩, none⟩])).2.filter
      (fun e => !isLogEv e)) = [] ∧
      (([(⟨some ⟨some "audio/pcm", none⟩, none⟩ : Part)].filter
        isAudioPart).length = 1) := by
  constructor
  · decide
  · decide

theorem csInv_skipP : csInv skipP := fun _ => rfl

theorem csInv_logP (tag : String) : csInv (logP tag) := fun _ => rfl

theorem csInv_emitP (ef : Emit → Option String) (e : Emit) : csInv (emitP ef e) := by
  intro s
  unfold emitP
  cases ef e <;> rfl

theorem csInv_seqP {a b : ProcU} (ha : csInv a) (hb : csInv b) :
    csInv (seqP a b) := by
  intro s
  cases h : a s with
  | ok s1 =>
    have h1 : s1.cs = s.cs := by have := ha s; rwa [h] at this
    have h2 := hb s1
    simp only [seqP, h]
    rw [h2, h1]
  | err e s1 =>
    have h1 : s1.cs = s.cs := by have := ha s; rwa [h] at this
    simpa [seqP, h, PRes.state] using h1

theorem csInv_tryP {a b : ProcU} (ha : csInv a) (hb : csInv b) :
    csInv (tryP a b) := by
  intro s
  cases h : a s with
  | ok s1 =>
    have h1 : s1.cs = s.cs := by have := ha s; rwa [h] at this
    simpa [tryP, h, PRes.state] using h1
  | err e s1 =>
    have h1 : s1.cs = s.cs := by have := ha s; rwa [h] at this
    have h2 := hb s1
    simp only [tryP, h]
    rw [h2, h1]

theorem csInv_handleAudioPart (ef : Emit → Option String)
    (dec : String → Except String (List Nat)) (p : Part) :
    csInv (handleAudioPart ef dec p) := by
  intro s
  rw [handleAudioPart_run]
  rfl

theorem csInv_forP {f : Part → ProcU} (hf : ∀ p, csInv (f p)) :
    ∀ l, csInv (forP f l) := by
  intro l
  induction l with
  | nil => exact csInv_skipP
  | cons p rest ih => exact csInv_seqP (hf p) ih

theorem csInv_handleModelTurn (ef : Emit → Option String)
    (dec : String → Except String (List Nat)) (parts : List Part) :
    csInv (handleModelTurn ef dec parts) := by
  unfold handleModelTurn
  refine csInv_seqP (csInv_forP (csInv_handleAudioPart ef dec) _) ?_
  split
  · exact csInv_seqP (csInv_emitP _ _) (csInv_logP _)
  · exact csInv_skipP

theorem csInv_handleServerContent (ef : Emit → Option String)
    (dec : String → Except String (List Nat)) (sc : ServerContent) :
    csInv (handleServerContent ef dec sc) := by
  unfold handleServerContent
  refine csInv_seqP ?_ (csInv_seqP ?_ (csInv_seqP ?_ ?_))
  · split
    · exact csInv_seqP (csInv_logP _) (csInv_emitP _ _)
    · exact csInv_skipP
  · split
    · exact csInv_seqP (csInv_logP _) (csInv_emitP _ _)
    · exact csInv_skipP
  · split
    · exact csInv_seqP (csInv_logP _) (csInv_emitP _ _)
    · exact csInv_skipP
  · split
    · exact csInv_handleModelTurn _ _ _
    · exact csInv_skipP

theorem csInv_restHandler (ef : Emit → Option String)
    (dec : String → Except String (List Nat)) (msg : Message) :
    csInv (restHandler ef dec msg) := by
  unfold restHandler goAwayHandler setupHandler tailHandler
  refine csInv_seqP ?_ (csInv_seqP ?_ ?_)
  · split
    · exact csInv_seqP (csInv_logP _) (csInv_emitP _ _)
    · exact csInv_skipP
  · split
    · exact csInv_seqP (csInv_logP _) (csInv_emitP _ _)
    · exact csInv_skipP
  · split
    · exact csInv_seqP (csInv_logP _) (csInv_emitP _ _)
    · split
      · exact csInv_seqP (csInv_logP _) (csInv_emitP _ _)
      · split
        · exact csInv_handleServerContent _ _ _
        · exact csInv_skipP

theorem addsNoSRU_skipP : addsNoSRU skipP := fun _ => rfl

theorem addsNoSRU_logP (tag : String) : addsNoSRU (logP tag) := by
  intro s
  simp [logP, PRes.state, List.countP_append, isSRUEv]

theorem addsNoSRU_emitP (ef : Emit → Option String) (e : Emit)
    (he : isSRUEv e = false) : addsNoSRU (emitP ef e) := by
  intro s
  unfold emitP
  cases ef e <;> simp [PRes.state, List.countP_append, List.countP_cons, he]

theorem addsNoSRU_seqP {a b : ProcU} (ha : addsNoSRU a) (hb : addsNoSRU b) :
    addsNoSRU (seqP a b) := by
  intro s
  cases h : a s with
  | ok s1 =>
    have h1 := ha s
    rw [h] at h1
    have h2 := hb s1
    simp only [seqP, h]
    rw [h2]
    simpa [PRes.state] using h1
  | err e s1 =>
    have h1 := ha s
    rw [h] at h1
    simpa [seqP, h, PRes.state] using h1

theorem addsNoSRU_tryP {a b : ProcU} (ha : addsNoSRU a) (hb : addsNoSRU b) :
    addsNoSRU (tryP a b) := by
  intro s
  cases h : a s with
  | ok s1 =>
    have h1 := ha s
    rw [h] at h1
    simpa [tryP, h, PRes.state] using h1
  | err e s1 =>
    have h1 := ha s
    rw [h] at h1
    have h2 := hb s1
    simp only [tryP, h]
    rw [h2]
    simpa [PRes.state] using h1

theorem countP_sru_audioPartEvents (ef : Emit → Option String)
    (dec : String → Except String (List Nat)) (p : Part) :
    (audioPartEvents ef dec p).countP isSRUEv = 0 := by
  obtain ⟨bd, tx⟩ := p
  cases bd with
  | none => rfl
  | some b =>
    cases hbd : b.data with
    | none => simp [audioPartEvents, hbd]
    | some d =>
      by_cases hd : d = ""
      · simp [audioPartEvents, hbd, hd]
      · cases hdec : dec d with
        | error e => simp [audioPartEvents, hbd, hd, hdec, isSRUEv]
        | ok bytes =>
          cases hef : ef (.audio bytes) with
          | none => simp [audioPartEvents, hbd, hd, hdec, hef, isSRUEv]
          | some m => simp [audioPartEvents, hbd, hd, hdec, hef, isSRUEv]

theorem addsNoSRU_handleAudioPart (ef : Emit → Option String)
    (dec : String → Except String (List Nat)) (p : Part) :
    addsNoSRU (handleAudioPart ef dec p) := by
  intro s
  rw [handleAudioPart_run]
  simp [PRes.state, List.countP_append, countP_sru_audioPartEvents]

theorem addsNoSRU_forP {f : Part → ProcU} (hf : ∀ p, addsNoSRU (f p)) :
    ∀ l, addsNoSRU (forP f l) := by
  intro l
  induction l with
  | nil => exact addsNoSRU_skipP
  | cons p rest ih => exact addsNoSRU_seqP (hf p) ih

theorem addsNoSRU_handleModelTurn (ef : Emit → Option String)
    (dec : String → Except String (List Nat)) (parts : List Part) :
    addsNoSRU (handleModelTurn ef dec parts) := by
  unfold handleModelTurn
  refine addsNoSRU_seqP (addsNoSRU_forP (addsNoSRU_handleAudioPart ef dec) _) ?_
  split
  · exact addsNoSRU_seqP (addsNoSRU_emitP _ _ rfl) (addsNoSRU_logP _)
  · exact addsNoSRU_skipP

theorem addsNoSRU_handleServerContent (ef : Emit → Option String)
    (dec : String → Except String (List Nat)) (sc : ServerContent) :
    addsNoSRU (handleServerContent ef dec sc) := by
  unfold handleServerContent
  refine addsNoSRU_seqP ?_ (addsNoSRU_seqP ?_ (addsNoSRU_seqP ?_ ?_))
  · split
    · exact addsNoSRU_seqP (addsNoSRU_logP _) (addsNoSRU_emitP _ _ rfl)
    · exact addsNoSRU_skipP
  · split
    · exact addsNoSRU_seqP (addsNoSRU_logP _) (addsNoSRU_emitP _ _ rfl)
    · exact addsNoSRU_skipP
  · split
    · exact addsNoSRU_seqP (addsNoSRU_logP _) (addsNoSRU_emitP _ _ rfl)
    · exact addsNoSRU_skipP
  · split
    · exact addsNoSRU_handleModelTurn _ _ _
    · exact addsNoSRU_skipP

theorem addsNoSRU_restHandler (ef : Emit → Option String)
    (dec : String → Except String (List Nat)) (msg : Message) :
    addsNoSRU (restHandler ef dec msg) := by
  unfold restHandler goAwayHandler setupHandler tailHandler
  refine addsNoSRU_seqP ?_ (addsNoSRU_seqP ?_ ?_)
  · split
    · exact addsNoSRU_seqP (addsNoSRU_logP _) (addsNoSRU_emitP _ _ rfl)
    · exact addsNoSRU_skipP
  · split
    · exact addsNoSRU_seqP (addsNoSRU_logP _) (addsNoSRU_emitP _ _ rfl)
    · exact addsNoSRU_skipP
  · split
    · exact addsNoSRU_seqP (addsNoSRU_logP _) (addsNoSRU_emitP _ _ rfl)
    · split
      · exact addsNoSRU_seqP (addsNoSRU_logP _) (addsNoSRU_emitP _ _ rfl)
      · split
        · exact addsNoSRU_handleServerContent _ _ _
        · exact addsNoSRU_skipP

theorem handleSessionUpdate_cs (ef : Emit → Option String) (u : SRUpdate)
    (s : PState) :
    ((handleSessionUpdate ef u s).state).cs =
      (if u.resumable && jsTruthyStr u.newHandle then
        (if s.cs.sessionHandle ≠ u.newHandle then
          { setSessionHandle s.cs u.newHandle with sessionResumable := true }
        else { s.cs with sessionResumable := true })
      else { setSessionHandle s.cs none with sessionResumable := false }) := by
  unfold handleSessionUpdate emitP
  by_cases h1 : u.resumable && jsTruthyStr u.newHandle
  · by_cases h2 : s.cs.sessionHandle ≠ u.newHandle
    · cases ef (.sessionresumptionupdate u) <;> simp [h1, h2, PRes.state]
    · cases ef (.sessionresumptionupdate u) <;> simp [h1, h2, PRes.state]
  · cases ef (.sessionresumptionupdate u) <;> simp [h1, PRes.state]

theorem handleSessionUpdate_count (ef : Emit → Option String) (u : SRUpdate)
    (s : PState) :
    (((handleSessionUpdate ef u s).state).evs).countP isSRUEv =
      s.evs.countP isSRUEv + 1 := by
  unfold handleSessionUpdate emitP
  by_cases h1 : u.resumable && jsTruthyStr u.newHandle
  · by_cases h2 : s.cs.sessionHandle ≠ u.newHandle
    · cases ef (.sessionresumptionupdate u) <;>
        simp [h1, h2, PRes.state, List.countP_append, List.countP_cons, isSRUEv]
    · cases ef (.sessionresumptionupdate u) <;>
        simp [h1, h2, PRes.state, List.countP_append, List.countP_cons, isSRUEv]
  · cases ef (.sessionresumptionupdate u) <;>
      simp [h1, PRes.state, List.countP_append, List.countP_cons, isSRUEv]

theorem onmessage_sru (ef : Emit → Option String)
    (dec : String → Except String (List Nat)) (cs : ClientState)
    (msg : Message) (u : SRUpdate)
    (hsru : msg.sessionResumptionUpdate = some u) :
    (onmessage ef dec cs msg).1 =
      (if u.resumable && jsTruthyStr u.newHandle then
        (if cs.sessionHandle ≠ u.newHandle then
          { setSessionHandle cs u.newHandle with sessionResumable := true }
        else { cs with sessionResumable := true })
      else { setSessionHandle cs none with sessionResumable := false }) ∧
    (onmessage ef dec cs msg).2.countP isSRUEv = 1 := by
  have hbody : onmessageBody ef dec msg { cs := cs, evs := [] } =
      seqP (handleSessionUpdate ef u) (restHandler ef dec msg)
        { cs := cs, evs := [Emit.log "server.message.raw"] } := by
    unfold onmessageBody sruHandler
    rw [hsru]
    simp [seqP, logP]
  have hcs0 := handleSessionUpdate_cs ef u { cs := cs, evs := [Emit.log "server.message.raw"] }
  have hcount0 := handleSessionUpdate_count ef u { cs := cs, evs := [Emit.log "server.message.raw"] }
  unfold onmessage
  rw [hbody]
  cases hh : handleSessionUpdate ef u { cs := cs, evs := [Emit.log "server.message.raw"] } with
  | ok s2 =>
    rw [hh] at hcs0 hcount0
    simp only [PRes.state] at hcs0 hcount0
    have hrc := csInv_restHandler ef dec msg s2
    have hrn := addsNoSRU_restHandler ef dec msg s2
    simp only [seqP, hh]
    cases hr : restHandler ef dec msg s2 with
    | ok s3 =>
      rw [hr] at hrc hrn
      simp only [PRes.state] at hrc hrn
      dsimp only
      constructor
      · rw [hrc, hcs0]
      · rw [hrn, hcount0]
        simp [isSRUEv]
    | err e s3 =>
      rw [hr] at hrc hrn
      simp only [PRes.state] at hrc hrn
      dsimp only
      constructor
      · rw [hrc, hcs0]
      · simp [List.countP_append, isSRUEv, hrn, hcount0]
  | err e s2 =>
    rw [hh] at hcs0 hcount0
    simp only [PRes.state] at hcs0 hcount0
    simp only [seqP, hh]
    constructor
    · exact hcs0
    · simp [List.countP_append, isSRUEv, hcount0]

/-- C6: on a message carrying a session-resumption update, exactly one
sessionresumptionupdate event is emitted; a resumable update carrying a new
handle sets the resumability flag and persists the handle only when it
differs from the current one (no store write otherwise); a non-resumable
update clears the stored handle, the durable store and the flag; and the
concrete sequence resumable H1 then non-resumable leaves the store empty
and resumability false. -/
theorem c6_session_resumption :
    (∀ ef dec cs msg u, msg.sessionResumptionUpdate = some u →
      ((onmessage ef dec cs msg).2.countP isSRUEv = 1) ∧
      (∀ h, u.resumable = true → u.newHandle = some h → h ≠ "" →
        (onmessage ef dec cs msg).1.sessionResumable = true ∧
        (cs.sessionHandle = some h →
          (onmessage ef dec cs msg).1.sessionHandle = cs.sessionHandle ∧
          (onmessage ef dec cs msg).1.store = cs.store ∧
          (onmessage ef dec cs msg).1.storeOps = cs.storeOps) ∧
        (cs.sessionHandle ≠ some h →
          (onmessage ef dec cs msg).1.sessionHandle = some h ∧
          (onmessage ef dec cs msg).1.store = some h ∧
          (onmessage ef dec cs msg).1.storeOps = cs.storeOps + 1)) ∧
      (u.resumable = false →
        (onmessage ef dec cs msg).1.sessionHandle = none ∧
        (onmessage ef dec cs msg).1.store = none ∧
        (onmessage ef dec cs msg).1.sessionResumable = false)) ∧
    ((runTrace (initState none)
        [.onmessageOp noFail (fun _ => .ok [7]) (sruMsg (some "H1") true),
          .onmessageOp noFail (fun _ => .ok [7]) (sruMsg none false)]).sessionHandle
          = none ∧
      (runTrace (initState none)
        [.onmessageOp noFail (fun _ => .ok [7]) (sruMsg (some "H1") true),
          .onmessageOp noFail (fun _ => .ok [7]) (sruMsg none false)]).store = none ∧
      (runTrace (initState none)
        [.onmessageOp noFail (fun _ => .ok [7]) (sruMsg (some "H1") true),
          .onmessageOp noFail (fun _ => .ok [7]) (sruMsg none false)]).sessionResumable
          = false) := by
  constructor
  · intro ef dec cs msg u hsru
    obtain ⟨hcs, hcount⟩ := onmessage_sru ef dec cs msg u hsru
    refine ⟨hcount, ?_, ?_⟩
    · intro h hres hnew hne
      rw [hres, hnew] at hcs
      have htr : jsTruthyStr (some h) = true := by
        simp [jsTruthyStr, hne]
      rw [htr] at hcs
      simp only [Bool.true_and, if_true] at hcs
      by_cases heq : cs.sessionHandle = some h
      · rw [if_neg (by simp [heq])] at hcs
        refine ⟨by rw [hcs], ?_, ?_⟩
        · intro _
          rw [hcs]
          exact ⟨rfl, rfl, rfl⟩
        · intro hc
          exact absurd heq hc
      · rw [if_pos (by simp [heq])] at hcs
        refine ⟨by rw [hcs], ?_, ?_⟩
        · intro hc
          exact absurd hc heq
        · intro _
          rw [hcs]
          refine ⟨rfl, ?_, rfl⟩
          simp [setSessionHandle, htr]
    · intro hres
      rw [hres] at hcs
      simp only [Bool.false_and, if_false] at hcs
      rw [hcs]
      refine ⟨rfl, ?_, rfl⟩
      simp [setSessionHandle, jsTruthyStr]
  · refine ⟨by decide, by decide, by decide⟩

/-- Witness for C6 at a concrete resumable update with a fresh handle. -/
theorem c6_session_resumption_witness :
    (onmessage noFail (fun _ => Except.ok [7]) (initState none)
        (sruMsg (some "H1") true)).2.countP isSRUEv = 1 ∧
      (onmessage noFail (fun _ => Except.ok [7]) (initState none)
        (sruMsg (some "H1") true)).1.sessionHandle = some "H1" ∧
      (onmessage noFail (fun _ => Except.ok [7]) (initState none)
        (sruMsg (some "H1") true)).1.store = some "H1" ∧
      (onmessage noFail (fun _ => Except.ok [7]) (initState none)
        (sruMsg (some "H1") true)).1.sessionResumable = true := by
  have h := c6_session_resumption.1 noFail (fun _ => Except.ok [7])
    (initState none) (sruMsg (some "H1") true) ⟨some "H1", true⟩ rfl
  obtain ⟨hcount, hres, _⟩ := h
  have h2 := hres "H1" rfl rfl (by decide)
  have h3 := h2.2.2 (by decide)
  exact ⟨hcount, h3.1, h3.2.1, h2.1⟩

theorem csFrame_refl (a : ClientState) : csFrame a a :=
  ⟨rfl, rfl, rfl, rfl, rfl, rfl, rfl, rfl, rfl, rfl, rfl⟩

theorem csFrame_trans {a b c : ClientState} (h1 : csFrame a b)
    (h2 : csFrame b c) : csFrame a c := by
  obtain ⟨x1, x2, x3, x4, x5, x6, x7, x8, x9, x10, x11⟩ := h1
  obtain ⟨y1, y2, y3, y4, y5, y6, y7, y8, y9, y10, y11⟩ := h2
  exact ⟨y1.trans x1, y2.trans x2, y3.trans x3, y4.trans x4, y5.trans x5,
    y6.trans x6, y7.trans x7, y8.trans x8, y9.trans x9, y10.trans x10,
    y11.trans x11⟩

theorem csFrameP_of_csInv {f : ProcU} (h : csInv f) : csFrameP f := by
  intro s
  rw [h s]
  exact csFrame_refl _

theorem csFrameP_seqP {a b : ProcU} (ha : csFrameP a) (hb : csFrameP b) :
    csFrameP (seqP a b) := by
  intro s
  cases h : a s with
  | ok s1 =>
    have h1 : csFrame s.cs s1.cs := by have := ha s; rwa [h] at this
    have h2 := hb s1
    simp only [seqP, h]
    exact csFrame_trans h1 h2
  | err e s1 =>
    have h1 : csFrame s.cs s1.cs := by have := ha s; rwa [h] at this
    simpa [seqP, h, PRes.state] using h1

theorem csFrame_setSessionHandle (a : ClientState) (h : Option String) :
    csFrame a (setSessionHandle a h) := by
  simp [csFrame, setSessionHandle]

theorem csFrameP_handleSessionUpdate (ef : Emit → Option String) (u : SRUpdate) :
    csFrameP (handleSessionUpdate ef u) := by
  intro s
  rw [handleSessionUpdate_cs]
  by_cases h1 : u.resumable && jsTruthyStr u.newHandle
  · by_cases h2 : s.cs.sessionHandle ≠ u.newHandle
    · rw [if_pos h1, if_pos h2]
      simp [csFrame, setSessionHandle]
    · rw [if_pos h1, if_neg h2]
      simp [csFrame]
  · rw [if_neg h1]
    simp [csFrame, setSessionHandle]

theorem csFrameP_sruHandler (ef : Emit → Option String) (msg : Message) :
    csFrameP (sruHandler ef msg) := by
  unfold sruHandler
  split
  · exact csFrameP_handleSessionUpdate _ _
  · exact csFrameP_of_csInv csInv_skipP

theorem onmessage_frame (ef : Emit → Option String)
    (dec : String → Except String (List Nat)) (cs : ClientState)
    (msg : Message) : csFrame cs (onmessage ef dec cs msg).1 := by
  have hbody : csFrameP (onmessageBody ef dec msg) := by
    unfold onmessageBody
    exact csFrameP_seqP (csFrameP_of_csInv (csInv_logP _))
      (csFrameP_seqP (csFrameP_sruHandler ef msg)
        (csFrameP_of_csInv (csInv_restHandler ef dec msg)))
  have h := hbody { cs := cs, evs := [] }
  unfold onmessage
  cases hb : onmessageBody ef dec msg { cs := cs, evs := [] } with
  | ok s => rw [hb] at h; simpa [PRes.state] using h
  | err e s => rw [hb] at h; simpa [PRes.state] using h

theorem connect_timers (st : ClientState) (m : String) (c : Config)
    (r ok : Bool) :
    (connect st m c r ok).1.reconnectAttempts = st.reconnectAttempts ∧
    (connect st m c r ok).1.reconnectTimeout = st.reconnectTimeout ∧
    (connect st m c r ok).1.pendingReconnect = st.pendingReconnect ∧
    (connect st m c r ok).1.keepAlive = st.keepAlive ∧
    (connect st m c r ok).1.pendingKeepAlive = st.pendingKeepAlive := by
  unfold connect
  split
  · simp
  · split
    · simp
    · split <;> simp [setSessionHandle]

theorem clearReconnectTimer_clears (st : ClientState)
    (h : st.pendingReconnect = [] ∨
      ∃ id d, st.pendingReconnect = [(id, d)] ∧ st.reconnectTimeout = some id) :
    (clearReconnectTimer st).reconnectTimeout = none ∧
    (clearReconnectTimer st).pendingReconnect = [] := by
  unfold clearReconnectTimer
  cases hf : st.reconnectTimeout with
  | none =>
    rcases h with h | ⟨id, d, hp, hfld⟩
    · simp [hf, h]
    · rw [hfld] at hf
      exact absurd hf (by simp)
  | some id =>
    rcases h with h | ⟨id2, d, hp, hfld⟩
    · simp [h]
    · rw [hfld] at hf
      injection hf with hid
      subst hid
      simp [hp]

theorem clearReconnectTimer_frame (st : ClientState) :
    (clearReconnectTimer st).reconnectAttempts = st.reconnectAttempts ∧
    (clearReconnectTimer st).keepAlive = st.keepAlive ∧
    (clearReconnectTimer st).pendingKeepAlive = st.pendingKeepAlive ∧
    (clearReconnectTimer st).status = st.status ∧
    (clearReconnectTimer st).model = st.model ∧
    (clearReconnectTimer st).config = st.config ∧
    (clearReconnectTimer st).sessionHandle = st.sessionHandle ∧
    (clearReconnectTimer st).nextTimer = st.nextTimer ∧
    (clearReconnectTimer st).session = st.session := by
  unfold clearReconnectTimer
  cases st.reconnectTimeout <;> simp

theorem stopKeepAlive_clears (st : ClientState)
    (h : st.pendingKeepAlive = [] ∨
      ∃ id, st.pendingKeepAlive = [id] ∧ st.keepAlive = some id) :
    (stopKeepAlive st).keepAlive = none ∧
    (stopKeepAlive st).pendingKeepAlive = [] := by
  unfold stopKeepAlive
  cases hf : st.keepAlive with
  | none =>
    rcases h with h | ⟨id, hp, hfld⟩
    · simp [hf, h]
    · rw [hfld] at hf
      exact absurd hf (by simp)
  | some id =>
    rcases h with h | ⟨id2, hp, hfld⟩
    · simp [h]
    · rw [hfld] at hf
      injection hf with hid
      subst hid
      simp [hp]

theorem stopKeepAlive_frame (st : ClientState) :
    (stopKeepAlive st).reconnectAttempts = st.reconnectAttempts ∧
    (stopKeepAlive st).reconnectTimeout = st.reconnectTimeout ∧
    (stopKeepAlive st).pendingReconnect = st.pendingReconnect ∧
    (stopKeepAlive st).status = st.status ∧
    (stopKeepAlive st).model = st.model ∧
    (stopKeepAlive st).config = st.config ∧
    (stopKeepAlive st).sessionHandle = st.sessionHandle := by
  unfold stopKeepAlive
  cases st.keepAlive <;> simp

theorem reconnectStep_inv (st : ClientState) (ok : Bool) (j : Rat) (h : Inv st) :
    Inv (reconnectStep st ok j).1 := by
  obtain ⟨hatt, hrec, hka⟩ := h
  have hc := clearReconnectTimer_clears st hrec
  have hcf := clearReconnectTimer_frame st
  unfold reconnectStep
  dsimp only
  split
  · exact ⟨hatt, hrec, hka⟩
  · split
    · refine ⟨by simp [MAX_RECONNECT_ATTEMPTS], ?_, ?_⟩
      · left
        simp [setSessionHandle, hc.2]
      · rcases hka with hka | ⟨id, hp, hfld⟩
        · left
          simp [setSessionHandle, hcf.2.2.1, hka]
        · right
          exact ⟨id, by simp [setSessionHandle, hcf.2.2.1, hp],
            by simp [setSessionHandle, hcf.2.1, hfld]⟩
    · rename_i hlt
      have hlt4 : (clearReconnectTimer st).reconnectAttempts + 1 ≤
          MAX_RECONNECT_ATTEMPTS := by omega
      split
      · split
        · rename_i m c hm hc2
          have hct := connect_timers (clearReconnectTimer st) m c true ok
          split
          · refine ⟨?_, ?_, ?_⟩
            · simpa [hct.1] using hlt4
            · right
              exact ⟨(connect (clearReconnectTimer st) m c true ok).1.nextTimer,
                reconnectDelay
                  ((connect (clearReconnectTimer st) m c true ok).1.reconnectAttempts + 1) j,
                by simp [hct.2.2.1, hc.2], by simp⟩
            · rcases hka with hka | ⟨id, hp, hfld⟩
              · left
                simp [hct.2.2.2.2, hcf.2.2.1, hka]
              · right
                exact ⟨id, by simp [hct.2.2.2.2, hcf.2.2.1, hp],
                  by simp [hct.2.2.2.1, hcf.2.1, hfld]⟩
          · refine ⟨by simp, ?_, ?_⟩
            · left
              simp [hct.2.2.1, hc.2]
            · rcases hka with hka | ⟨id, hp, hfld⟩
              · left
                simp [hct.2.2.2.2, hcf.2.2.1, hka]
              · right
                exact ⟨id, by simp [hct.2.2.2.2, hcf.2.2.1, hp],
                  by simp [hct.2.2.2.1, hcf.2.1, hfld]⟩
        · refine ⟨by simpa [hcf.1] using hatt, by left; exact hc.2, ?_⟩
          rcases hka with hka | ⟨id, hp, hfld⟩
          · left
            simp [hcf.2.2.1, hka]
          · right
            exact ⟨id, by simp [hcf.2.2.1, hp], by simp [hcf.2.1, hfld]⟩
      · refine ⟨by simpa [hcf.1] using hatt, by left; exact hc.2, ?_⟩
        rcases hka with hka | ⟨id, hp, hfld⟩
        · left
          simp [hcf.2.2.1, hka]
        · right
          exact ⟨id, by simp [hcf.2.2.1, hp], by simp [hcf.2.1, hfld]⟩

theorem inv_of_frame {a b : ClientState} (hf : csFrame a b) (h : Inv a) :
    Inv b := by
  obtain ⟨f1, f2, f3, f4, f5, _⟩ := hf
  obtain ⟨h1, h2, h3⟩ := h
  refine ⟨by rw [f1]; exact h1, ?_, ?_⟩
  · rw [f2, f3]
    exact h2
  · rw [f4, f5]
    exact h3

theorem startKeepAlive_run (st : ClientState)
    (hka : st.pendingKeepAlive = [] ∨
      ∃ id, st.pendingKeepAlive = [id] ∧ st.keepAlive = some id) :
    ∃ n, (startKeepAlive st).keepAlive = some n ∧
      (startKeepAlive st).pendingKeepAlive = [n] := by
  have hc := stopKeepAlive_clears st hka
  unfold startKeepAlive
  dsimp only
  exact ⟨(stopKeepAlive st).nextTimer, by simp, by simp [hc.2]⟩

theorem startKeepAlive_frame (st : ClientState) :
    (startKeepAlive st).reconnectAttempts = st.reconnectAttempts ∧
    (startKeepAlive st).reconnectTimeout = st.reconnectTimeout ∧
    (startKeepAlive st).pendingReconnect = st.pendingReconnect := by
  unfold startKeepAlive
  have hf := stopKeepAlive_frame st
  dsimp only
  exact ⟨hf.1, hf.2.1, hf.2.2.1⟩

theorem inv_step (st : ClientState) (op : Op) (h : Inv st) :
    Inv (stepOp st op).1 := by
  obtain ⟨hatt, hrec, hka⟩ := h
  cases op with
  | connectOp m c r ok =>
    have hct := connect_timers st m c r ok
    unfold stepOp
    dsimp only
    refine ⟨by rw [hct.1]; exact hatt, ?_, ?_⟩
    · rw [hct.2.2.1, hct.2.1]
      exact hrec
    · rw [hct.2.2.2.2, hct.2.2.2.1]
      exact hka
  | onopenOp =>
    unfold stepOp onopen
    dsimp only
    have hr := startKeepAlive_run { st with status := .connected, reconnectAttempts := 0 } (by simpa using hka)
    have hf := startKeepAlive_frame { st with status := .connected, reconnectAttempts := 0 }
    obtain ⟨n, hn1, hn2⟩ := hr
    refine ⟨by simp [hf.1, MAX_RECONNECT_ATTEMPTS], ?_, ?_⟩
    · rw [hf.2.2, hf.2.1]
      simpa using hrec
    · right
      exact ⟨n, hn2, hn1⟩
  | oncloseOp code ok j =>
    unfold stepOp onclose
    dsimp only
    have hsf := stopKeepAlive_frame st
    have hsc := stopKeepAlive_clears st hka
    have hinv1 : Inv { stopKeepAlive st with status := Status.disconnected } := by
      refine ⟨by simpa [hsf.1] using hatt, ?_, by left; simp [hsc.2]⟩
      simpa [hsf.2.2.1, hsf.2.1] using hrec
    split
    · exact reconnectStep_inv _ ok j hinv1
    · split
      · obtain ⟨i1, i2, i3⟩ := hinv1
        exact ⟨by simpa [setSessionHandle] using i1,
          by simpa [setSessionHandle] using i2,
          by simpa [setSessionHandle] using i3⟩
      · exact hinv1
  | onerrorOp => exact ⟨hatt, hrec, hka⟩
  | onmessageOp ef dec msg =>
    exact inv_of_frame (onmessage_frame ef dec st msg) ⟨hatt, hrec, hka⟩
  | disconnectOp =>
    unfold stepOp disconnect
    dsimp only
    have hsc := stopKeepAlive_clears st hka
    have hsf := stopKeepAlive_frame st
    have hrec2 : (stopKeepAlive st).pendingReconnect = [] ∨
        ∃ id d, (stopKeepAlive st).pendingReconnect = [(id, d)] ∧
          (stopKeepAlive st).reconnectTimeout = some id := by
      simpa [hsf.2.2.1, hsf.2.1] using hrec
    have hcc := clearReconnectTimer_clears (stopKeepAlive st) hrec2
    have hcf := clearReconnectTimer_frame (stopKeepAlive st)
    have hka2 : (clearReconnectTimer (stopKeepAlive st)).pendingKeepAlive = [] :=
      by rw [hcf.2.2.1]; exact hsc.2
    split
    · exact ⟨by simpa [hcf.1, hsf.1] using hatt, by left; simpa using hcc.2,
        by left; simpa using hka2⟩
    · exact ⟨by simpa [hcf.1, hsf.1] using hatt, by left; simpa using hcc.2,
        by left; simpa using hka2⟩
  | clearSessionOp =>
    unfold stepOp clearSession
    dsimp only
    exact ⟨by simpa [setSessionHandle] using hatt,
      by simpa [setSessionHandle] using hrec,
      by simpa [setSessionHandle] using hka⟩
  | reconnectFire ok j =>
    unfold stepOp
    dsimp only
    cases hf : st.reconnectTimeout with
    | none => exact ⟨hatt, hrec, hka⟩
    | some id =>
      refine reconnectStep_inv _ ok j ⟨hatt, ?_, hka⟩
      left
      rcases hrec with hrec | ⟨id2, d, hp, hfld⟩
      · simp [hrec]
      · rw [hfld] at hf
        injection hf with hid
        subst hid
        simp [hp]
  | keepAliveFire sendOk =>
    unfold stepOp
    dsimp only
    split
    · exact ⟨hatt, hrec, hka⟩
    · split
      · split
        · exact ⟨hatt, hrec, hka⟩
        · have hsc := stopKeepAlive_clears st hka
          have hsf := stopKeepAlive_frame st
          exact ⟨by simpa [hsf.1] using hatt,
            by simpa [hsf.2.2.1, hsf.2.1] using hrec, by left; exact hsc.2⟩
      · exact ⟨hatt, hrec, hka⟩
  | forceReconnectOp =>
    unfold stepOp
    dsimp only
    split
    · exact ⟨hatt, hrec, hka⟩
    · exact ⟨hatt, hrec, hka⟩

theorem reach_inv (st : ClientState) (h : Reachable st) : Inv st := by
  induction h with
  | init stored =>
    exact ⟨by simp [initState, MAX_RECONNECT_ATTEMPTS], by left; rfl, by left; rfl⟩
  | next st1 op _ ih => exact inv_step st1 op ih

theorem reachable_runTrace (ops : List Op) :
    ∀ st, Reachable st → Reachable (runTrace st ops) := by
  induction ops with
  | nil => intro st h; exact h
  | cons op rest ih =>
    intro st h
    exact ih _ (Reachable.next st op h)

theorem connect_fail_shape (st : ClientState) (m : String) (c : Config)
    (h1 : st.status ≠ .connecting) (h2 : st.status ≠ .connected) :
    connect st m c true false =
      ({ st with status := .disconnected, config := some c, model := some m },
        .failed, [.log "client.connect", .log "client.connect.error"]) := by
  unfold connect
  rw [if_neg (by simp [h1, h2])]
  simp

/-- C9: once the attempt counter has reached MAX_RECONNECT_ATTEMPTS, the
next _reconnect invocation gives up: it clears the stored handle and the
durable store, resets the counter to 0, leaves no pending retry timer,
makes no connect attempt (status and session untouched); the counter never
exceeds the ceiling in any reachable state; and a successful open resets
the counter to 0. -/
theorem c9_reconnect_ceiling :
    (∀ st ok j, st.status ≠ Status.connected →
      st.reconnectAttempts ≥ MAX_RECONNECT_ATTEMPTS →
      (st.pendingReconnect = [] ∨
        ∃ id d, st.pendingReconnect = [(id, d)] ∧ st.reconnectTimeout = some id) →
      (reconnectStep st ok j).1.sessionHandle = none ∧
      (reconnectStep st ok j).1.store = none ∧
      (reconnectStep st ok j).1.reconnectAttempts = 0 ∧
      (reconnectStep st ok j).1.reconnectTimeout = none ∧
      (reconnectStep st ok j).1.pendingReconnect = [] ∧
      (reconnectStep st ok j).1.status = st.status ∧
      (reconnectStep st ok j).1.session = st.session) ∧
    (∀ st, Reachable st → st.reconnectAttempts ≤ MAX_RECONNECT_ATTEMPTS) ∧
    (∀ st, (onopen st).1.reconnectAttempts = 0) := by
  refine ⟨?_, ?_, ?_⟩
  · intro st ok j hs hge hlink
    have hc := clearReconnectTimer_clears st hlink
    have hcf := clearReconnectTimer_frame st
    unfold reconnectStep
    dsimp only
    rw [if_neg hs, if_pos (by rw [hcf.1]; exact hge)]
    refine ⟨by simp [setSessionHandle], by simp [setSessionHandle, jsTruthyStr],
      by simp, ?_, ?_, ?_, ?_⟩
    · simp [setSessionHandle, hc.1]
    · simp [setSessionHandle, hc.2]
    · simp [setSessionHandle, hcf.2.2.2.1]
    · simp [setSessionHandle, hcf.2.2.2.2.2.2.2.2]
  · intro st h
    exact (reach_inv st h).1
  · intro st
    exact (startKeepAlive_frame { st with status := .connected, reconnectAttempts := 0 }).1

/-- Witness for C9 at the state with five consumed attempts. -/
theorem c9_reconnect_ceiling_witness :
    (reconnectStep { initState none with reconnectAttempts := 5 } false 0).1.sessionHandle = none ∧
      (reconnectStep { initState none with reconnectAttempts := 5 } false 0).1.reconnectAttempts = 0 ∧
      (reconnectStep { initState none with reconnectAttempts := 5 } false 0).1.reconnectTimeout = none ∧
      (initState none).reconnectAttempts ≤ MAX_RECONNECT_ATTEMPTS ∧
      (onopen (initState none)).1.reconnectAttempts = 0 := by
  have h1 := c9_reconnect_ceiling.1 { initState none with reconnectAttempts := 5 }
    false 0 (by decide) (by decide) (by left; rfl)
  exact ⟨h1.1, h1.2.2.1, h1.2.2.2.1,
    c9_reconnect_ceiling.2.1 (initState none) (Reachable.init none),
    c9_reconnect_ceiling.2.2 (initState none)⟩

/-- C5: for every attempt number n in 1..MAX_RECONNECT_ATTEMPTS and every
jitter draw in 0..1000, the scheduled delay lies in the closed interval
from 1000 times 2 to the n-1 to that value plus 1000 and never exceeds
30000; a failing reconnect attempt arms exactly one fresh timer carrying
the delay computed from this invocation's jitter draw, with any previous
timer cancelled; and every reachable state has at most one pending
reconnect timer. -/
theorem c5_backoff_schedule :
    (∀ n, 1 ≤ n → n ≤ MAX_RECONNECT_ATTEMPTS → ∀ j : Rat, 0 ≤ j → j ≤ 1000 →
      1000 * 2 ^ (n - 1) ≤ reconnectDelay n j ∧
      reconnectDelay n j ≤ 1000 * 2 ^ (n - 1) + 1000 ∧
      reconnectDelay n j ≤ 30000) ∧
    (∀ st j, st.status = Status.disconnected →
      st.reconnectAttempts < MAX_RECONNECT_ATTEMPTS →
      jsTruthyStr st.model = true → st.config.isSome = true →
      (st.pendingReconnect = [] ∨
        ∃ id d, st.pendingReconnect = [(id, d)] ∧ st.reconnectTimeout = some id) →
      (reconnectStep st false j).1.pendingReconnect =
        [(st.nextTimer, reconnectDelay (st.reconnectAttempts + 1) j)] ∧
      (reconnectStep st false j).1.reconnectTimeout = some st.nextTimer ∧
      (reconnectStep st false j).1.reconnectAttempts =
        st.reconnectAttempts + 1) ∧
    (∀ st, Reachable st → st.pendingReconnect.length ≤ 1) := by
  refine ⟨?_, ?_, ?_⟩
  · intro n h1 h5 j hj0 hj1
    have h5b : n ≤ 5 := h5
    have hpow : (1000 : Rat) * 2 ^ (n - 1) ≤ 16000 := by
      interval_cases n <;> norm_num
    have hmin : min (30000 : Rat) (1000 * 2 ^ (n - 1)) = 1000 * 2 ^ (n - 1) := by
      rw [min_eq_right]
      linarith
    unfold reconnectDelay
    rw [hmin]
    refine ⟨by linarith, by linarith, by linarith⟩
  · intro st j hs hlt htm htc hlink
    obtain ⟨m, hm⟩ : ∃ m, st.model = some m := by
      cases hmod : st.model with
      | none => rw [hmod] at htm; exact absurd htm (by simp [jsTruthyStr])
      | some m => exact ⟨m, rfl⟩
    obtain ⟨c, hcfg⟩ : ∃ c, st.config = some c := by
      cases hcc : st.config with
      | none => rw [hcc] at htc; exact absurd htc (by simp)
      | some c => exact ⟨c, rfl⟩
    have hc := clearReconnectTimer_clears st hlink
    have hcf := clearReconnectTimer_frame st
    have hcst : (clearReconnectTimer st).status = st.status := hcf.2.2.2.1
    unfold reconnectStep
    dsimp only
    rw [if_neg (by rw [hs]; exact fun hh => by cases hh)]
    rw [if_neg (by rw [hcf.1]; omega)]
    have htm2 : jsTruthyStr (some m) = true := by rw [hm] at htm; exact htm
    rw [if_pos (by rw [hcf.2.2.2.2.1, hcf.2.2.2.2.2.1, hm, hcfg]; exact ⟨htm2, by simp⟩)]
    have hre : (clearReconnectTimer st).model = some m := by rw [hcf.2.2.2.2.1, hm]
    have hre2 : (clearReconnectTimer st).config = some c := by rw [hcf.2.2.2.2.2.1, hcfg]
    rw [hre, hre2]
    dsimp only
    rw [connect_fail_shape _ m c (by rw [hcst, hs]; exact fun hh => by cases hh)
      (by rw [hcst, hs]; exact fun hh => by cases hh)]
    dsimp only
    refine ⟨?_, ?_, ?_⟩
    · simp [hc.2, hcf.1, hcf.2.2.2.2.2.2.2.1]
    · simp [hcf.2.2.2.2.2.2.2.1]
    · simp [hcf.1]
  · intro st h
    rcases (reach_inv st h).2.1 with hp | ⟨id, d, hp, _⟩
    · simp [hp]
    · simp [hp]

/-- Witness for C5 at attempt three with jitter 500, and a concrete failing
reconnect invocation with jitter 250. -/
theorem c5_backoff_schedule_witness :
    (1000 * 2 ^ (3 - 1) ≤ reconnectDelay 3 500 ∧
      reconnectDelay 3 500 ≤ 1000 * 2 ^ (3 - 1) + 1000 ∧
      reconnectDelay 3 500 ≤ 30000) ∧
    ((reconnectStep { initState none with model := some "m", config := some 0 }
        false 250).1.pendingReconnect =
      [(0, reconnectDelay 1 250)] ∧
      (reconnectStep { initState none with model := some "m", config := some 0 }
        false 250).1.reconnectTimeout = some 0 ∧
      (reconnectStep { initState none with model := some "m", config := some 0 }
        false 250).1.reconnectAttempts = 1) ∧
    (initState none).pendingReconnect.length ≤ 1 := by
  refine ⟨c5_backoff_schedule.1 3 (by decide) (by decide) 500 (by norm_num) (by norm_num),
    ?_, c5_backoff_schedule.2.2 (initState none) (Reachable.init none)⟩
  exact c5_backoff_schedule.2.1 { initState none with model := some "m", config := some 0 }
    250 rfl (by decide) (by decide) (by decide) (by left; rfl)

/-- C2 (refuting evaluation): the reachable state obtained by connecting,
receiving a resumable handle H1, suffering an abnormal closure 1006 and
exhausting the five reconnect attempts has a null stored handle and an
empty durable store while the resumability flag is still true: the
attempt-ceiling path clears the handle without resetting the flag. -/
theorem c2_ceiling_leaves_resumable :
    Reachable (runTrace (initState none) bugTrace) ∧
    (runTrace (initState none) bugTrace).sessionHandle = none ∧
    (runTrace (initState none) bugTrace).store = none ∧
    (runTrace (initState none) bugTrace).sessionResumable = true := by
  refine ⟨reachable_runTrace bugTrace (initState none) (Reachable.init none),
    by decide, by decide, by decide⟩

end GenAILive
